import Mathlib

/-!
Verification development for the unix-manual-server command-documentation
core (`unix_manual_server.py`).  The Python functions are shallowly embedded
as pure Lean functions over an explicit process-execution environment
(`Env`): every external `subprocess.run` call is modelled as a lookup of an
`Invocation` (argument vector, optional timeout, optional stdin data) in the
environment, which answers with an `ExecOutcome` (a completed process with
exit code / stdout / stderr, or one of the exception classes the source code
distinguishes).  Each embedded function additionally returns the ordered
list of invocations it spawned, so that process-spawning behaviour (ordering,
timeouts, which argument vectors are ever executed) is provable.
-/

namespace UnixManual

/-- Result of a completed subprocess: exit code (an integer, negative when the
child is killed by a signal, exactly as CPython reports it), captured stdout
and stderr. Mirrors the fields of `subprocess.CompletedProcess` used by the
source. -/
structure ExecResult where
  returncode : Int
  stdout : String
  stderr : String
deriving Repr, DecidableEq

/-- Outcome of one `subprocess.run` call: either a completed process, or one
of the exception classes that the source code names in its `except` clauses
(`subprocess.TimeoutExpired`, other `subprocess.SubprocessError`,
`FileNotFoundError`, other `OSError`). -/
inductive ExecOutcome where
  | ok (r : ExecResult)
  | timedOut
  | subprocessError
  | fileNotFound
  | osError
deriving Repr, DecidableEq

/-- One external process invocation: the argument vector passed to
`subprocess.run`, the `timeout=` keyword argument (`none` when the source
passes no timeout), and the `input=` keyword argument (`none` when absent). -/
structure Invocation where
  args : List String
  timeoutSec : Option Nat
  inputData : Option String
deriving Repr, DecidableEq

/-- The process-execution environment: what the operating system answers for
each invocation.  A fixed environment models one unchanged system state. -/
def Env : Type := Invocation → ExecOutcome

/-- Exceptions that can escape the embedded functions to their caller. -/
inductive PyErr where
  | indexError
  | fileNotFound
  | osError
deriving Repr, DecidableEq

/-! ## String primitives

The Python string operations used by the source (`str.strip`, `str.split`,
`str.splitlines`, `re.search` with literal alternatives and `re.IGNORECASE`,
the `\d+\.\d+\.\d+` pattern, `re.match(r'^/',...)`) are modelled over
`List Char`.  ASCII is assumed, as in the source's own data. -/

/-- Lowercase every character (the effect of `re.IGNORECASE` on literal
pattern alternatives). -/
def lowerChars (cs : List Char) : List Char := cs.map Char.toLower

/-- Strip leading and trailing whitespace from a character list
(Python `str.strip()`). -/
def stripChars (cs : List Char) : List Char :=
  ((cs.dropWhile Char.isWhitespace).reverse.dropWhile Char.isWhitespace).reverse

/-- Python `str.strip()` on strings. -/
def pyStrip (s : String) : String := String.mk (stripChars s.data)

/-- Helper for `pySplit`: split on whitespace runs, accumulating the current
token in reverse. -/
def splitWsAux : List Char → List Char → List (List Char)
  | [], acc => if acc.isEmpty then [] else [acc.reverse]
  | c :: cs, acc =>
    if c.isWhitespace then
      if acc.isEmpty then splitWsAux cs [] else acc.reverse :: splitWsAux cs []
    else splitWsAux cs (c :: acc)

/-- Python `str.split()` with no separator: split on runs of whitespace,
producing no empty tokens. -/
def pySplit (s : String) : List String := (splitWsAux s.data []).map String.mk

/-- Helper for `splitLines`: split on newline characters. -/
def splitNLAux : List Char → List Char → List (List Char)
  | [], acc => [acc.reverse]
  | c :: cs, acc =>
    if c = '\n' then acc.reverse :: splitNLAux cs [] else splitNLAux cs (c :: acc)

/-- Python `str.splitlines()` as used on shell output: split on newline.
(A possibly different treatment of a trailing newline is immaterial here:
the source only ever asks whether some line starts with a slash, and the
extra empty line this version can produce never does.) -/
def splitLines (s : String) : List String := (splitNLAux s.data []).map String.mk

/-- Does the line match `re.match(r'^/', line)`, i.e. start with a slash? -/
def startsWithSlash (l : String) : Bool :=
  match l.data with
  | '/' :: _ => true
  | _ => false

/-- Substring test on character lists: does `pat` occur contiguously in the
list?  This is the semantics of Python's `re.search` for a literal pattern. -/
def hasSubList (pat : List Char) : List Char → Bool
  | [] => pat.isPrefixOf []
  | c :: rest => pat.isPrefixOf (c :: rest) || hasSubList pat rest

/-- Case-insensitive substring test: the semantics of
`re.search(pattern, out, re.IGNORECASE)` for one literal alternative. -/
def ciHas (out pat : String) : Bool :=
  hasSubList (lowerChars pat.data) (lowerChars out.data)

/-- Consume one or more leading ASCII digits (`\d+`), returning the rest of
the list, or `none` when there is no leading digit. -/
def munchDigits : List Char → Option (List Char)
  | [] => none
  | c :: cs => if c.isDigit then some (cs.dropWhile Char.isDigit) else none

/-- Does `\d+\.\d+\.\d+` match at the head of the list?  Since a digit run
and a literal dot cannot overlap, maximal munch is exactly the regex
semantics. -/
def semVerAt (cs : List Char) : Bool :=
  match munchDigits cs with
  | some ('.' :: rest) =>
    match munchDigits rest with
    | some ('.' :: rest2) => (munchDigits rest2).isSome
    | _ => false
  | _ => false

/-- Does `re.search(r'\d+\.\d+\.\d+', s)` find a match anywhere? -/
def hasSemVerChars : List Char → Bool
  | [] => false
  | c :: cs => semVerAt (c :: cs) || hasSemVerChars cs

/-- Version-number pattern test on strings. -/
def hasSemVer (s : String) : Bool := hasSemVerChars s.data

/-- One character of a valid command name: the class `[a-zA-Z0-9_.-]`. -/
def nameChar (c : Char) : Bool :=
  (c.isAlpha || c.isDigit) || c = '_' || c = '.' || c = '-'

/-- The validation `re.match(r'^[a-zA-Z0-9_\.-]+$', s)` of the source
(lines 142 and 294).  The input is always a whitespace-free token produced
by `str.split()`, on which full-match of the character class is exactly this
test. -/
def validName (s : String) : Bool := !s.data.isEmpty && s.data.all nameChar

/-! ## Message formats (the string literals of the source) -/

/-- The message `f"Help output for '{main_command}':\n\n{output}"`
(source lines 89, 102, 113, 166). -/
def helpMsg (m out : String) : String := "Help output for '" ++ m ++ "':\n\n" ++ out

/-- The message `f"Manual page for '{main_command}':\n\n{man_text}"`
(source line 199). -/
def manMsg (m text : String) : String := "Manual page for '" ++ m ++ "':\n\n" ++ text

/-- The message `f"Invalid command name: '{main_command}'"`
(source lines 144 and 296). -/
def invalidMsg (m : String) : String := "Invalid command name: '" ++ m ++ "'"

/-- The message `f"Command not found: '{main_command}'"` (source line 150). -/
def notFoundMsg (m : String) : String := "Command not found: '" ++ m ++ "'"

/-- The message `f"No documentation available for '{command}'"`
(source line 214); note it interpolates the full original input. -/
def noDocMsg (c : String) : String := "No documentation available for '" ++ c ++ "'"

/-- The version message of `check_command_exists` (source lines 307, 314, 321). -/
def verMsg (m p out : String) : String :=
  "Command '" ++ m ++ "' exists at " ++ p ++ ".\nVersion information: " ++ out

/-- The plain existence message of `check_command_exists` (source line 323). -/
def plainExistsMsg (m p : String) : String :=
  "Command '" ++ m ++ "' exists on this system at " ++ p ++ "."

/-- The negative message of `check_command_exists` (source line 326). -/
def dneMsg (m : String) : String :=
  "Command '" ++ m ++ "' does not exist or is not in the PATH."

/-! ## The embedded source functions -/

/-- Argument vector of the shell lookup in `get_command_path` (source line 34):
`[user_shell, "-l", "-c", f"command -v {command} 2>/dev/null"]`. -/
def lookupArgs (shell command : String) : List String :=
  [shell, "-l", "-c", "command -v " ++ command ++ " 2>/dev/null"]

/-- The shell-lookup invocation: `subprocess.run` is called with
`capture_output=True, text=True` and no `timeout=` argument. -/
def resolveInv (shell command : String) : Invocation :=
  ⟨lookupArgs shell command, none, none⟩

/-- First line of the captured stdout that begins with `/`, stripped —
the loop of source lines 39-43. -/
def firstSlashLine (s : String) : Option String :=
  ((splitLines s).find? startsWithSlash).map pyStrip

/-- `get_command_path(command)` (source lines 26-48).  The `try` block
catches only `subprocess.SubprocessError` (of which `TimeoutExpired` is a
subclass) and converts it to `None`; a `FileNotFoundError` or other `OSError`
raised by `subprocess.run` propagates to the caller, which the `Except`
result records.  The second component is the list of spawned invocations. -/
def get_command_path (env : Env) (shell command : String) :
    Except PyErr (Option String) × List Invocation :=
  let inv := resolveInv shell command
  match env inv with
  | .ok r => (.ok (firstSlashLine r.stdout), [inv])
  | .timedOut => (.ok none, [inv])
  | .subprocessError => (.ok none, [inv])
  | .fileNotFound => (.error .fileNotFound, [inv])
  | .osError => (.error .osError, [inv])

/-- `safe_execute(cmd_args, timeout)` (source lines 50-72): runs the argument
vector directly (`shell=False`) with the given timeout and converts every
caught exception (`TimeoutExpired`, `SubprocessError`, `FileNotFoundError`,
`OSError`) to `None`. -/
def safe_execute (env : Env) (cmd_args : List String) (timeout : Nat) :
    Option ExecResult × List Invocation :=
  (match env ⟨cmd_args, some timeout, none⟩ with
   | .ok r => some r
   | _ => none,
   [⟨cmd_args, some timeout, none⟩])

/-- A help/version probe invocation `[command_path, flag]` run through
`safe_execute` with `timeout=5`. -/
def probeInv (path flag : String) : Invocation := ⟨[path, flag], some 5, none⟩

/-- The help-text pattern of source lines 86 and 99:
`re.search(r'usage|options|help|Usage|Options|Help|USAGE|OPTIONS|HELP|USAGE:|VERSION|Version', output, re.IGNORECASE)`,
one case-insensitive substring test per literal alternative. -/
def mainHelpPattern (out : String) : Bool :=
  (["usage", "options", "help", "Usage", "Options", "Help", "USAGE", "OPTIONS",
    "HELP", "USAGE:", "VERSION", "Version"]).any (ciHas out)

/-- Classification for the `--help` and `-h` probes (source lines 86-87 and
99-100): the keyword pattern or the `\d+\.\d+\.\d+` version-number pattern. -/
def genuineMain (out : String) : Bool := mainHelpPattern out || hasSemVer out

/-- Classification for the `help` subcommand probe (source line 111):
`re.search(r'usage|options|help|Usage|Options|Help|USAGE|OPTIONS|HELP', output, re.IGNORECASE)`,
with no version-number fallback. -/
def genuineSub (out : String) : Bool :=
  (["usage", "options", "help", "Usage", "Options", "Help", "USAGE", "OPTIONS",
    "HELP"]).any (ciHas out)

/-- One probe attempt of `search_help_documentation` (the three analogous
blocks at source lines 80-92, 96-104, 108-115): the result is accepted as a
candidate when the process completed with `returncode < 2` and stdout
non-empty after stripping, and its stripped output is then classified by
`genuine`; on success the help message is produced. -/
def classifyProbe (main_command : String) (genuine : String → Bool) :
    Option ExecResult → Option String
  | some res =>
    if res.returncode < 2 ∧ pyStrip res.stdout ≠ "" then
      if genuine (pyStrip res.stdout) then
        some (helpMsg main_command (pyStrip res.stdout))
      else none
    else none
  | none => none

/-- `search_help_documentation(main_command, command_path)` (source lines
74-119): try `--help`, `-h`, `help` in order, each via `safe_execute` with
`timeout=5`, returning the first classified help message, or `""` when all
three fail. -/
def search_help_documentation (env : Env) (main_command command_path : String) :
    String × List Invocation :=
  let (r1, t1) := safe_execute env [command_path, "--help"] 5
  match classifyProbe main_command genuineMain r1 with
  | some s => (s, t1)
  | none =>
    let (r2, t2) := safe_execute env [command_path, "-h"] 5
    match classifyProbe main_command genuineMain r2 with
    | some s => (s, t1 ++ t2)
    | none =>
      let (r3, t3) := safe_execute env [command_path, "help"] 5
      match classifyProbe main_command genuineSub r3 with
      | some s => (s, t1 ++ t2 ++ t3)
      | none => ("", t1 ++ t2 ++ t3)

/-- The economic stage of `get_command_documentation` (source lines 153-166):
the classifier chain, then — when it produced nothing and `command_path` is
truthy — one more direct `--help` attempt whose acceptance test is
`help_cmd and help_cmd.stdout and help_cmd.returncode < 2` (note: stdout
tested before stripping). -/
def econ_stage (env : Env) (main_command command_path : String) :
    Option String × List Invocation :=
  let (hr, t1) := search_help_documentation env main_command command_path
  if hr ≠ "" then (some hr, t1)
  else if command_path ≠ "" then
    let (r, t2) := safe_execute env [command_path, "--help"] 5
    match r with
    | some res =>
      if res.stdout ≠ "" ∧ res.returncode < 2 then
        (some (helpMsg main_command (pyStrip res.stdout)), t1 ++ t2)
      else (none, t1 ++ t2)
    | none => (none, t1 ++ t2)
  else (none, t1)

/-- The `man` argument vector (source lines 171-175): the section number is
appended only when present and in the range 1-9. -/
def man_args (man_section : Option Int) (main_command : String) : List String :=
  match man_section with
  | some s => if 1 ≤ s ∧ s ≤ 9 then ["man", toString s, main_command] else ["man", main_command]
  | none => ["man", main_command]

/-- The `man` invocation (source lines 180-186): `subprocess.run` with piped
stdout/stderr and `timeout=10`. -/
def manInv (man_section : Option Int) (main_command : String) : Invocation :=
  ⟨man_args man_section main_command, some 10, none⟩

/-- The `col -b` invocation (source lines 191-196): `subprocess.run` with
`input=man_result.stdout` and no timeout. -/
def colInv (d : String) : Invocation := ⟨["col", "-b"], none, some d⟩

/-- The three classifier probe invocations in their source order. -/
def probes3 (p : String) : List Invocation :=
  [probeInv p "--help", probeInv p "-h", probeInv p "help"]

/-- The manual-page stage of `get_command_documentation` (source lines
177-203): run `man` with `timeout=10`; on exit code 0 pipe its stdout through
`col -b` (no timeout) and produce the manual message from the `col` output;
every exception inside the `try` is caught and the stage yields nothing. -/
def man_stage (env : Env) (main_command : String) (man_section : Option Int) :
    Option String × List Invocation :=
  match env (manInv man_section main_command) with
  | .ok r =>
    if r.returncode = 0 then
      match env (colInv r.stdout) with
      | .ok cr =>
        (some (manMsg main_command cr.stdout),
         [manInv man_section main_command, colInv r.stdout])
      | _ => (none, [manInv man_section main_command, colInv r.stdout])
    else (none, [manInv man_section main_command])
  | _ => (none, [manInv man_section main_command])

/-- Outcome of the body of `get_command_documentation` after the main command
token has been extracted: an uncaught exception, an early return with a
complete message, or fall-through to the final line 214. -/
inductive DocOutcome where
  | err (e : PyErr)
  | msg (s : String)
  | noDoc
deriving Repr, DecidableEq

/-- The body of `get_command_documentation` (source lines 141-213) for an
already-extracted main command token: validate, resolve the path, run the
economic stage when `prefer_economic`, then the manual stage, then the
classifier chain as late fallback when `not prefer_economic`. -/
def get_doc_core (env : Env) (shell main_command : String)
    (prefer_economic : Bool) (man_section : Option Int) :
    DocOutcome × List Invocation :=
  if validName main_command = false then (.msg (invalidMsg main_command), [])
  else
    match get_command_path env shell main_command with
    | (.error e, t0) => (.err e, t0)
    | (.ok none, t0) => (.msg (notFoundMsg main_command), t0)
    | (.ok (some command_path), t0) =>
      match (if prefer_economic then econ_stage env main_command command_path
             else (none, [])) with
      | (some s, t1) => (.msg s, t0 ++ t1)
      | (none, t1) =>
        match man_stage env main_command man_section with
        | (some s, t2) => (.msg s, t0 ++ t1 ++ t2)
        | (none, t2) =>
          if prefer_economic then (.noDoc, t0 ++ t1 ++ t2)
          else
            let (hr, t3) := search_help_documentation env main_command command_path
            if hr ≠ "" then (.msg hr, t0 ++ t1 ++ t2 ++ t3)
            else (.noDoc, t0 ++ t1 ++ t2 ++ t3)

/-- `get_command_documentation(command, prefer_economic, man_section)`
(source lines 122-214).  `parts = command.strip().split()` followed by
`parts[0]` raises `IndexError` on an all-whitespace input; otherwise the body
runs on the first token and the final fall-through message interpolates the
full original `command`. -/
def get_command_documentation (env : Env) (shell command : String)
    (prefer_economic : Bool) (man_section : Option Int) :
    Except PyErr String × List Invocation :=
  match pySplit (pyStrip command) with
  | [] => (.error .indexError, [])
  | main_command :: _ =>
    match get_doc_core env shell main_command prefer_economic man_section with
    | (.err e, t) => (.error e, t)
    | (.msg s, t) => (.ok s, t)
    | (.noDoc, t) => (.ok (noDocMsg command), t)

/-- The final `version` attempt of `check_command_exists` (source lines
317-323); `acc` is the trace spawned so far. -/
def check_version_last (env : Env) (command_name command_path : String)
    (acc : List Invocation) : Except PyErr String × List Invocation :=
  let (v3, t3) := safe_execute env [command_path, "version"] 5
  match v3 with
  | some r3 =>
    if r3.returncode < 2 ∧ pyStrip r3.stdout ≠ "" then
      (.ok (verMsg command_name command_path (pyStrip r3.stdout)), acc ++ t3)
    else (.ok (plainExistsMsg command_name command_path), acc ++ t3)
  | none => (.ok (plainExistsMsg command_name command_path), acc ++ t3)

/-- The `-V` attempt of `check_command_exists` (source lines 310-314),
entered after the `--version` attempt failed. -/
def check_version_rest (env : Env) (command_name command_path : String)
    (acc : List Invocation) : Except PyErr String × List Invocation :=
  let (v2, t2) := safe_execute env [command_path, "-V"] 5
  match v2 with
  | some r2 =>
    if r2.returncode < 2 ∧ pyStrip r2.stdout ≠ "" then
      (.ok (verMsg command_name command_path (pyStrip r2.stdout)), acc ++ t2)
    else check_version_last env command_name command_path (acc ++ t2)
  | none => check_version_last env command_name command_path (acc ++ t2)

/-- `check_command_exists(command)` (source lines 280-326): extract the first
token (raising `IndexError` on an empty split), validate it, resolve its
path, then try `--version`, `-V`, `version` in order via `safe_execute` with
`timeout=5`, accepting a completed probe with `returncode < 2` and non-empty
stripped stdout. -/
def check_command_exists (env : Env) (shell command : String) :
    Except PyErr String × List Invocation :=
  match pySplit (pyStrip command) with
  | [] => (.error .indexError, [])
  | command_name :: _ =>
    if validName command_name = false then (.ok (invalidMsg command_name), [])
    else
      match get_command_path env shell command_name with
      | (.error e, t0) => (.error e, t0)
      | (.ok none, t0) => (.ok (dneMsg command_name), t0)
      | (.ok (some command_path), t0) =>
        let (v1, t1) := safe_execute env [command_path, "--version"] 5
        match v1 with
        | some r1 =>
          if r1.returncode < 2 ∧ pyStrip r1.stdout ≠ "" then
            (.ok (verMsg command_name command_path (pyStrip r1.stdout)), t0 ++ t1)
          else check_version_rest env command_name command_path (t0 ++ t1)
        | none => check_version_rest env command_name command_path (t0 ++ t1)

/-! ## Spec-side definitions

These two definitions follow the specification's words (section 4.2 step 3)
rather than the source, for the refinement comparison of claim C9: genuine
help text "case-insensitively contains any of the tokens
{usage, options, help, version} OR matches a semantic-version pattern",
and the `help` subcommand variant drops the version-number fallback and
narrows the token set. -/

/-- Spec-side classifier for the `--help` and `-h` probes. -/
def specGenuineMain (out : String) : Bool :=
  ciHas out "usage" || ciHas out "options" || ciHas out "help" ||
    ciHas out "version" || hasSemVer out

/-- Spec-side classifier for the `help` subcommand probe. -/
def specGenuineSub (out : String) : Bool :=
  ciHas out "usage" || ciHas out "options" || ciHas out "help"

/-! ## First-occurrence index and ordering of invocations -/

/-- Index of the first occurrence of an invocation in a trace. -/
def firstIdx (inv : Invocation) : List Invocation → Option Nat
  | [] => none
  | a :: t => if a = inv then some 0 else (firstIdx inv t).map (· + 1)

/-- Invocation `a` strictly precedes invocation `b` in trace `t`: whenever
`b` occurs, `a` also occurs, at a strictly smaller first index. -/
def before (t : List Invocation) (a b : Invocation) : Prop :=
  ∀ j, firstIdx b t = some j → ∃ i, firstIdx a t = some i ∧ i < j

/-- The acceptance test applied to each version probe of
`check_command_exists` (source lines 305, 312, 319), phrased as a predicate
on the environment: the probe completed, exited below 2, and printed
something beyond whitespace. -/
def version_accepted (env : Env) (path flag : String) : Bool :=
  match env (probeInv path flag) with
  | .ok r => decide (r.returncode < 2) && !(pyStrip r.stdout == "")
  | _ => false

/-- Stripped stdout of a version probe (empty when the probe did not
complete). -/
def version_out (env : Env) (path flag : String) : String :=
  match env (probeInv path flag) with
  | .ok r => pyStrip r.stdout
  | _ => ""

/-! ## Concrete environments (system states) used to evaluate the code -/

/-- System state in which `uv` resolves to `/usr/bin/uv`, the combined
invocation `uv run --help` would print usage text, every plain probe of `uv`
prints nothing, and `man uv` fails. -/
def envUvRun : Env := fun inv =>
  if inv.args = lookupArgs "/bin/zsh" "uv" then .ok ⟨0, "/usr/bin/uv\n", ""⟩
  else if inv.args = ["/usr/bin/uv", "run", "--help"] then
    .ok ⟨0, "usage: uv run [OPTIONS]", ""⟩
  else if inv.args.head? = some "man" then .ok ⟨1, "", ""⟩
  else .ok ⟨0, "", ""⟩

/-- System state in which `ls --help` exits 0 printing text that fails help
classification, `-h` and `help` print nothing, and the manual viewer
succeeds. -/
def envOddHelp : Env := fun inv =>
  if inv.args = lookupArgs "/bin/zsh" "ls" then .ok ⟨0, "/bin/ls\n", ""⟩
  else if inv.args = ["/bin/ls", "--help"] then .ok ⟨0, "gibberish xyz", ""⟩
  else if inv.args = ["man", "ls"] then .ok ⟨0, "RAW MAN TEXT", ""⟩
  else if inv.args = ["col", "-b"] then .ok ⟨0, "LS(1) FORMATTED", ""⟩
  else .ok ⟨0, "", ""⟩

/-- System state in which `ls` resolves, every help probe of `ls` prints
nothing, and the manual viewer succeeds. -/
def envManOnly : Env := fun inv =>
  if inv.args = lookupArgs "/bin/zsh" "ls" then .ok ⟨0, "/bin/ls\n", ""⟩
  else if inv.args = ["man", "ls"] then .ok ⟨0, "RAW MAN TEXT", ""⟩
  else if inv = ⟨["col", "-b"], none, some "RAW MAN TEXT"⟩ then
    .ok ⟨0, "LS(1) FORMATTED", ""⟩
  else .ok ⟨0, "", ""⟩

/-- System state in which every process completes with exit code 0 and empty
output. -/
def envQuiet : Env := fun _ => .ok ⟨0, "", ""⟩

/-- System state in which every process completes with exit code 0 and empty
output (second copy, for a separate witness). -/
def envQuiet2 : Env := fun _ => .ok ⟨0, "", ""⟩

/-- System state in which the probe `foo --help` completes with the
signal-kill exit code `-1` while printing usage text. -/
def envCrashHelp : Env := fun inv =>
  if inv.args = ["/bin/foo", "--help"] then .ok ⟨-1, "usage: foo", ""⟩
  else .ok ⟨0, "", ""⟩

/-- System state in which every `subprocess.run` raises `FileNotFoundError`
(for instance, `SHELL` names a nonexistent shell). -/
def envNoShell : Env := fun _ => .fileNotFound

/-- System state in which every `subprocess.run` raises a
`subprocess.SubprocessError`. -/
def envSpawnFail : Env := fun _ => .subprocessError

/-- System state in which `ls` resolves, all help probes of `ls` print
nothing, and `man ls` fails. -/
def envNoDocs : Env := fun inv =>
  if inv.args = lookupArgs "/bin/zsh" "ls" then .ok ⟨0, "/bin/ls\n", ""⟩
  else if inv.args = ["man", "ls"] then .ok ⟨1, "", ""⟩
  else .ok ⟨0, "", ""⟩

/-- System state in which `foo` resolves, `foo --version` dies with the
signal-kill exit code `-9` while emitting text, and `foo -V` exits 0 with a
real version string. -/
def envCrashVersion : Env := fun inv =>
  if inv.args = lookupArgs "/bin/zsh" "foo" then .ok ⟨0, "/bin/foo\n", ""⟩
  else if inv.args = ["/bin/foo", "--version"] then
    .ok ⟨-9, "garbled crash output", ""⟩
  else if inv.args = ["/bin/foo", "-V"] then .ok ⟨0, "foo 1.2.3", ""⟩
  else .ok ⟨0, "", ""⟩

/-- System state in which `ls` resolves and every version probe exits 2. -/
def envNoVersion : Env := fun inv =>
  if inv.args = lookupArgs "/bin/zsh" "ls" then .ok ⟨0, "/bin/ls\n", ""⟩
  else .ok ⟨2, "unrecognized option", ""⟩

/-! ## Basic lemmas about the embedding -/

theorem helpMsg_ne_empty (m out : String) : helpMsg m out ≠ "" := by
  intro h
  have hd : (helpMsg m out).data = ([] : List Char) := by rw [h]
  exact List.cons_ne_nil _ _ hd

theorem safe_execute_trace (env : Env) (a : List String) (t : Nat) :
    (safe_execute env a t).2 = [⟨a, some t, none⟩] := rfl

theorem env_of_safe_some {env : Env} {a : List String} {t : Nat} {r : ExecResult}
    (h : (safe_execute env a t).1 = some r) : env ⟨a, some t, none⟩ = .ok r := by
  unfold safe_execute at h
  rcases he : env ⟨a, some t, none⟩ with r' | _ | _ | _ | _ <;>
    rw [he] at h <;> simp_all

theorem get_command_path_trace (env : Env) (shell n : String) :
    (get_command_path env shell n).2 = [resolveInv shell n] := by
  unfold get_command_path
  rcases he : env (resolveInv shell n) with r | _ | _ | _ | _ <;> simp [he]

theorem get_command_path_no_raise {env : Env} (shell n : String)
    (h1 : env (resolveInv shell n) ≠ .fileNotFound)
    (h2 : env (resolveInv shell n) ≠ .osError) :
    ∃ o, (get_command_path env shell n).1 = .ok o := by
  unfold get_command_path
  rcases he : env (resolveInv shell n) with r | _ | _ | _ | _ <;> simp [he] at h1 h2 ⊢

theorem classifyProbe_eq_some {m : String} {g : String → Bool}
    {r : Option ExecResult} {s : String} (h : classifyProbe m g r = some s) :
    ∃ res, r = some res ∧ res.returncode < 2 ∧ pyStrip res.stdout ≠ "" ∧
      g (pyStrip res.stdout) = true ∧ s = helpMsg m (pyStrip res.stdout) := by
  rcases r with _ | res
  · exact absurd h (by simp [classifyProbe])
  · simp only [classifyProbe] at h
    refine ⟨res, rfl, ?_⟩
    by_cases h1 : res.returncode < 2 ∧ pyStrip res.stdout ≠ ""
    · rw [if_pos h1] at h
      by_cases h2 : g (pyStrip res.stdout) = true
      · rw [if_pos h2] at h
        exact ⟨h1.1, h1.2, h2, (Option.some.injEq _ _ ▸ h).symm⟩
      · rw [if_neg h2] at h
        exact absurd h (by simp)
    · rw [if_neg h1] at h
      exact absurd h (by simp)

/-- Unfolding of the classifier chain: its value is determined by the three
probe classifications, with the trace growing one probe at a time. -/
theorem search_help_eq (env : Env) (m p : String) :
    search_help_documentation env m p =
      match classifyProbe m genuineMain (safe_execute env [p, "--help"] 5).1 with
      | some s => (s, [probeInv p "--help"])
      | none =>
        match classifyProbe m genuineMain (safe_execute env [p, "-h"] 5).1 with
        | some s => (s, [probeInv p "--help", probeInv p "-h"])
        | none =>
          match classifyProbe m genuineSub (safe_execute env [p, "help"] 5).1 with
          | some s => (s, [probeInv p "--help", probeInv p "-h", probeInv p "help"])
          | none => ("", [probeInv p "--help", probeInv p "-h", probeInv p "help"]) := rfl

/-- The classifier chain spawns one, two or three probes and returns a
non-empty message, or all three and returns the empty string. -/
theorem search_help_shape (env : Env) (m p : String) :
    (∃ s, search_help_documentation env m p = (s, [probeInv p "--help"]) ∧ s ≠ "") ∨
    (∃ s, search_help_documentation env m p =
        (s, [probeInv p "--help", probeInv p "-h"]) ∧ s ≠ "") ∨
    (∃ s, search_help_documentation env m p =
        (s, [probeInv p "--help", probeInv p "-h", probeInv p "help"]) ∧ s ≠ "") ∨
    search_help_documentation env m p =
      ("", [probeInv p "--help", probeInv p "-h", probeInv p "help"]) := by
  rw [search_help_eq]
  rcases h1 : classifyProbe m genuineMain (safe_execute env [p, "--help"] 5).1 with _ | s1
  · rcases h2 : classifyProbe m genuineMain (safe_execute env [p, "-h"] 5).1 with _ | s2
    · rcases h3 : classifyProbe m genuineSub (safe_execute env [p, "help"] 5).1 with _ | s3
      · exact Or.inr (Or.inr (Or.inr rfl))
      · obtain ⟨res, -, -, -, -, hs⟩ := classifyProbe_eq_some h3
        exact Or.inr (Or.inr (Or.inl ⟨s3, rfl, hs ▸ helpMsg_ne_empty _ _⟩))
    · obtain ⟨res, -, -, -, -, hs⟩ := classifyProbe_eq_some h2
      exact Or.inr (Or.inl ⟨s2, rfl, hs ▸ helpMsg_ne_empty _ _⟩)
  · obtain ⟨res, -, -, -, -, hs⟩ := classifyProbe_eq_some h1
    exact Or.inl ⟨s1, rfl, hs ▸ helpMsg_ne_empty _ _⟩

/-- The manual stage spawns the `man` invocation, optionally followed by the
`col -b` invocation fed with the `man` output. -/
theorem man_stage_trace (env : Env) (m : String) (ms : Option Int) :
    (man_stage env m ms).2 = [manInv ms m] ∨
      ∃ d, (man_stage env m ms).2 = [manInv ms m, colInv d] := by
  unfold man_stage
  rcases he : env (manInv ms m) with r | _ | _ | _ | _ <;> simp [he]
  by_cases h0 : r.returncode = 0
  · rw [if_pos h0]
    rcases hc : env (colInv r.stdout) with cr | _ | _ | _ | _ <;> simp [hc]
  · rw [if_neg h0]
    simp

/-- The economic stage spawns a prefix of the classifier chain, optionally
followed by the direct `--help` re-check; when it yields nothing it has run
the whole chain. -/
theorem econ_stage_trace (env : Env) (m p : String) :
    (∃ s, econ_stage env m p = (some s, [probeInv p "--help"])) ∨
    (∃ s, econ_stage env m p = (some s, [probeInv p "--help", probeInv p "-h"])) ∨
    (∃ s, econ_stage env m p = (some s, probes3 p)) ∨
    (∃ s, econ_stage env m p = (some s, probes3 p ++ [probeInv p "--help"])) ∨
    econ_stage env m p = (none, probes3 p) ∨
    (∃ t, econ_stage env m p = (none, t) ∧ t = probes3 p ++ [probeInv p "--help"]) := by
  rcases search_help_shape env m p with ⟨s, hs, hne⟩ | ⟨s, hs, hne⟩ | ⟨s, hs, hne⟩ | hs
  · exact Or.inl ⟨s, by simp [econ_stage, hs, hne]⟩
  · exact Or.inr (Or.inl ⟨s, by simp [econ_stage, hs, hne]⟩)
  · exact Or.inr (Or.inr (Or.inl ⟨s, by simp [econ_stage, hs, hne, probes3]⟩))
  · by_cases hp : p ≠ ""
    · rcases he : env ⟨[p, "--help"], some 5, none⟩ with res | _ | _ | _ | _
      · by_cases hc : res.stdout ≠ "" ∧ res.returncode < 2
        · refine Or.inr (Or.inr (Or.inr (Or.inl ⟨helpMsg m (pyStrip res.stdout), ?_⟩)))
          simp [econ_stage, hs, hp, probes3, probeInv, safe_execute, he, hc]
        · refine Or.inr (Or.inr (Or.inr (Or.inr (Or.inr ⟨_, ?_, rfl⟩))))
          simp [econ_stage, hs, hp, probes3, probeInv, safe_execute, he, hc]
      all_goals
        refine Or.inr (Or.inr (Or.inr (Or.inr (Or.inr ⟨_, ?_, rfl⟩))))
      all_goals
        simp [econ_stage, hs, hp, probes3, probeInv, safe_execute, he]
    · push_neg at hp
      subst hp
      refine Or.inr (Or.inr (Or.inr (Or.inr (Or.inl ?_))))
      simp [econ_stage, hs, probes3]

theorem search_help_mem {env : Env} {m p : String} {inv : Invocation}
    (h : inv ∈ (search_help_documentation env m p).2) :
    ∃ f, f ∈ (["--help", "-h", "help"] : List String) ∧ inv = probeInv p f := by
  rcases search_help_shape env m p with ⟨s, hs, -⟩ | ⟨s, hs, -⟩ | ⟨s, hs, -⟩ | hs
  · rw [hs] at h
    simp at h
    exact ⟨"--help", by simp, h⟩
  · rw [hs] at h
    simp at h
    rcases h with h | h
    · exact ⟨"--help", by simp, h⟩
    · exact ⟨"-h", by simp, h⟩
  · rw [hs] at h
    simp at h
    rcases h with h | h | h
    · exact ⟨"--help", by simp, h⟩
    · exact ⟨"-h", by simp, h⟩
    · exact ⟨"help", by simp, h⟩
  · rw [hs] at h
    simp at h
    rcases h with h | h | h
    · exact ⟨"--help", by simp, h⟩
    · exact ⟨"-h", by simp, h⟩
    · exact ⟨"help", by simp, h⟩

theorem econ_stage_mem {env : Env} {m p : String} {inv : Invocation}
    (h : inv ∈ (econ_stage env m p).2) :
    ∃ f, f ∈ (["--help", "-h", "help"] : List String) ∧ inv = probeInv p f := by
  rcases econ_stage_trace env m p with
    ⟨s, hs⟩ | ⟨s, hs⟩ | ⟨s, hs⟩ | ⟨s, hs⟩ | hs | ⟨t, hs, ht⟩
  · rw [hs] at h
    simp at h
    exact ⟨"--help", by simp, h⟩
  · rw [hs] at h
    simp at h
    rcases h with h | h
    · exact ⟨"--help", by simp, h⟩
    · exact ⟨"-h", by simp, h⟩
  · rw [hs] at h
    simp [probes3] at h
    rcases h with h | h | h
    · exact ⟨"--help", by simp, h⟩
    · exact ⟨"-h", by simp, h⟩
    · exact ⟨"help", by simp, h⟩
  · rw [hs] at h
    simp [probes3] at h
    rcases h with h | h | h | h
    · exact ⟨"--help", by simp, h⟩
    · exact ⟨"-h", by simp, h⟩
    · exact ⟨"help", by simp, h⟩
    · exact ⟨"--help", by simp, h⟩
  · rw [hs] at h
    simp [probes3] at h
    rcases h with h | h | h
    · exact ⟨"--help", by simp, h⟩
    · exact ⟨"-h", by simp, h⟩
    · exact ⟨"help", by simp, h⟩
  · rw [ht] at hs
    rw [hs] at h
    simp [probes3] at h
    rcases h with h | h | h | h
    · exact ⟨"--help", by simp, h⟩
    · exact ⟨"-h", by simp, h⟩
    · exact ⟨"help", by simp, h⟩
    · exact ⟨"--help", by simp, h⟩

theorem man_stage_mem {env : Env} {m : String} {ms : Option Int} {inv : Invocation}
    (h : inv ∈ (man_stage env m ms).2) :
    inv = manInv ms m ∨ ∃ d, inv = colInv d := by
  rcases man_stage_trace env m ms with ht | ⟨d, ht⟩ <;> rw [ht] at h <;> simp at h
  · exact Or.inl h
  · rcases h with h | h
    · exact Or.inl h
    · exact Or.inr ⟨d, h⟩

/-- Every invocation spawned by the body of `get_command_documentation` is
the shell path lookup, a classifier/re-check probe, the `man` invocation or
the `col -b` invocation. -/
theorem get_doc_core_mem {env : Env} {shell m : String} {pe : Bool}
    {ms : Option Int} {inv : Invocation}
    (h : inv ∈ (get_doc_core env shell m pe ms).2) :
    inv = resolveInv shell m ∨
    (∃ p f, f ∈ (["--help", "-h", "help"] : List String) ∧ inv = probeInv p f) ∨
    inv = manInv ms m ∨ (∃ d, inv = colInv d) := by
  rcases hv : validName m with _ | _
  · simp only [get_doc_core, hv] at h
    simp at h
  · rcases hgp : get_command_path env shell m with ⟨res0, t0⟩
    have ht0 : t0 = [resolveInv shell m] := by
      have h3 := congrArg Prod.snd hgp
      rw [get_command_path_trace] at h3
      exact h3.symm
    subst ht0
    rcases res0 with e | o
    · simp only [get_doc_core, hv, hgp] at h
      simp at h
      exact Or.inl h
    · rcases o with _ | path
      · simp only [get_doc_core, hv, hgp] at h
        simp at h
        exact Or.inl h
      · rcases hec : econ_stage env m path with ⟨eo, te⟩
        have hte : ∀ x, x ∈ te →
            ∃ f, f ∈ (["--help", "-h", "help"] : List String) ∧ x = probeInv path f := by
          intro x hx
          have h6 : (econ_stage env m path).2 = te := by rw [hec]
          rw [← h6] at hx
          exact econ_stage_mem hx
        rcases hms : man_stage env m ms with ⟨mo, tm⟩
        have htm : ∀ x, x ∈ tm → x = manInv ms m ∨ ∃ d, x = colInv d := by
          intro x hx
          have h6 : (man_stage env m ms).2 = tm := by rw [hms]
          rw [← h6] at hx
          exact man_stage_mem hx
        rcases hsh : search_help_documentation env m path with ⟨hr, ts⟩
        have hts : ∀ x, x ∈ ts →
            ∃ f, f ∈ (["--help", "-h", "help"] : List String) ∧ x = probeInv path f := by
          intro x hx
          have h6 : (search_help_documentation env m path).2 = ts := by rw [hsh]
          rw [← h6] at hx
          exact search_help_mem hx
        rcases pe with _ | _
        · simp only [get_doc_core, hv, hgp, hms, hsh, Bool.false_eq_true, if_false] at h
          rcases mo with _ | s2
          · by_cases hhr : hr ≠ "" <;> simp [hhr] at h <;>
              rcases h with h | h | h
            · exact Or.inl h
            · rcases htm inv h with hm | hm
              · exact Or.inr (Or.inr (Or.inl hm))
              · exact Or.inr (Or.inr (Or.inr hm))
            · obtain ⟨f, hf, hi⟩ := hts inv h
              exact Or.inr (Or.inl ⟨path, f, hf, hi⟩)
            · exact Or.inl h
            · rcases htm inv h with hm | hm
              · exact Or.inr (Or.inr (Or.inl hm))
              · exact Or.inr (Or.inr (Or.inr hm))
            · obtain ⟨f, hf, hi⟩ := hts inv h
              exact Or.inr (Or.inl ⟨path, f, hf, hi⟩)
          · simp at h
            rcases h with h | h
            · exact Or.inl h
            · rcases htm inv h with hm | hm
              · exact Or.inr (Or.inr (Or.inl hm))
              · exact Or.inr (Or.inr (Or.inr hm))
        · simp only [get_doc_core, hv, hgp, hec, hms, if_true] at h
          rcases eo with _ | s
          · rcases mo with _ | s2
            · simp at h
              rcases h with h | h | h
              · exact Or.inl h
              · obtain ⟨f, hf, hi⟩ := hte inv h
                exact Or.inr (Or.inl ⟨path, f, hf, hi⟩)
              · rcases htm inv h with hm | hm
                · exact Or.inr (Or.inr (Or.inl hm))
                · exact Or.inr (Or.inr (Or.inr hm))
            · simp at h
              rcases h with h | h | h
              · exact Or.inl h
              · obtain ⟨f, hf, hi⟩ := hte inv h
                exact Or.inr (Or.inl ⟨path, f, hf, hi⟩)
              · rcases htm inv h with hm | hm
                · exact Or.inr (Or.inr (Or.inl hm))
                · exact Or.inr (Or.inr (Or.inr hm))
          · simp at h
            rcases h with h | h
            · exact Or.inl h
            · obtain ⟨f, hf, hi⟩ := hte inv h
              exact Or.inr (Or.inl ⟨path, f, hf, hi⟩)

/-- Top-level version of `get_doc_core_mem`: the shape of every invocation
`get_command_documentation` ever spawns. -/
theorem get_command_documentation_mem {env : Env} {shell command : String}
    {pe : Bool} {ms : Option Int} {inv : Invocation}
    (h : inv ∈ (get_command_documentation env shell command pe ms).2) :
    (∃ n, inv = resolveInv shell n) ∨
    (∃ p f, f ∈ (["--help", "-h", "help"] : List String) ∧ inv = probeInv p f) ∨
    (∃ mm, inv = manInv ms mm) ∨ (∃ d, inv = colInv d) := by
  rcases hsp : pySplit (pyStrip command) with _ | ⟨m, rest⟩
  · have heval : get_command_documentation env shell command pe ms =
        (.error .indexError, []) := by
      unfold get_command_documentation
      rw [hsp]
    rw [heval] at h
    simp at h
  · have heval : get_command_documentation env shell command pe ms =
        (match get_doc_core env shell m pe ms with
         | (.err e, t) => (.error e, t)
         | (.msg s, t) => ((.ok s : Except PyErr String), t)
         | (.noDoc, t) => (.ok (noDocMsg command), t)) := by
      unfold get_command_documentation
      rw [hsp]
    rcases hc : get_doc_core env shell m pe ms with ⟨o, t⟩
    have ht : (get_doc_core env shell m pe ms).2 = t := by rw [hc]
    rw [hc] at heval
    rw [heval] at h
    have h2 : inv ∈ t := by
      rcases o with e | s <;> simpa using h
    rw [← ht] at h2
    rcases get_doc_core_mem h2 with h3 | ⟨p, f, hf, h3⟩ | h3 | ⟨d, h3⟩
    · exact Or.inl ⟨m, h3⟩
    · exact Or.inr (Or.inl ⟨p, f, hf, h3⟩)
    · exact Or.inr (Or.inr (Or.inl ⟨m, h3⟩))
    · exact Or.inr (Or.inr (Or.inr ⟨d, h3⟩))

theorem man_args_head (ms : Option Int) (m : String) :
    (man_args ms m).head? = some "man" := by
  rcases ms with _ | s
  · rfl
  · show (if 1 ≤ s ∧ s ≤ 9 then ["man", toString s, m]
      else ["man", m]).head? = some "man"
    by_cases h : 1 ≤ s ∧ s ≤ 9
    · rw [if_pos h]
      rfl
    · rw [if_neg h]
      rfl

/-- Claim C7 (confirmed): an input whose first token fails the name pattern
makes both `get_command_documentation` and `check_command_exists` return the
`Invalid command name` message with an empty spawn trace — validation
happens before any process is spawned. -/
theorem C7_invalid_name_no_spawn (env : Env) (shell command : String)
    (pe : Bool) (ms : Option Int) (m : String) (rest : List String)
    (hsplit : pySplit (pyStrip command) = m :: rest)
    (hv : validName m = false) :
    get_command_documentation env shell command pe ms = (.ok (invalidMsg m), []) ∧
      check_command_exists env shell command = (.ok (invalidMsg m), []) := by
  constructor
  · unfold get_command_documentation
    rw [hsplit]
    simp [get_doc_core, hv]
  · unfold check_command_exists
    rw [hsplit]
    simp [hv]

/-- Witness for C7: the invalid input `invalid;command` is rejected by both
entry points with no spawned process. -/
theorem C7_witness :
    get_command_documentation envQuiet "/bin/zsh" "invalid;command" true none =
        (.ok (invalidMsg "invalid;command"), []) ∧
      check_command_exists envQuiet "/bin/zsh" "invalid;command" =
        (.ok (invalidMsg "invalid;command"), []) :=
  C7_invalid_name_no_spawn envQuiet "/bin/zsh" "invalid;command" true none
    "invalid;command" [] (by rfl) (by rfl)

/-- Claim C6 (amended): each help probe (including the direct `--help`
re-check) is bounded by a 5-second timeout and the `man` invocation by a
10-second timeout, but the shell path lookup and the `col -b` formatter are
spawned with no timeout at all. -/
theorem C6_timeouts (env : Env) (shell command : String) (pe : Bool)
    (ms : Option Int) (inv : Invocation)
    (h : inv ∈ (get_command_documentation env shell command pe ms).2) :
    (inv.timeoutSec = none ∧
      ((∃ n, inv = resolveInv shell n) ∨ inv.args = ["col", "-b"])) ∨
    (inv.timeoutSec = some 5 ∧
      ∃ p f, f ∈ (["--help", "-h", "help"] : List String) ∧ inv = probeInv p f) ∨
    (inv.timeoutSec = some 10 ∧ inv.args.head? = some "man") := by
  rcases get_command_documentation_mem h with
    ⟨n, rfl⟩ | ⟨p, f, hf, rfl⟩ | ⟨mm, rfl⟩ | ⟨d, rfl⟩
  · exact Or.inl ⟨rfl, Or.inl ⟨n, rfl⟩⟩
  · exact Or.inr (Or.inl ⟨rfl, p, f, hf, rfl⟩)
  · exact Or.inr (Or.inr ⟨rfl, man_args_head ms mm⟩)
  · exact Or.inl ⟨rfl, Or.inr rfl⟩

/-- Witness for C6 (amended): in a concrete run the first spawned invocation
is the shell path lookup and it indeed carries no timeout. -/
theorem C6_witness :
    ((resolveInv "/bin/zsh" "ls").timeoutSec = none ∧
      ((∃ n, resolveInv "/bin/zsh" "ls" = resolveInv "/bin/zsh" n) ∨
        (resolveInv "/bin/zsh" "ls").args = ["col", "-b"])) ∨
    ((resolveInv "/bin/zsh" "ls").timeoutSec = some 5 ∧
      ∃ p f, f ∈ (["--help", "-h", "help"] : List String) ∧
        resolveInv "/bin/zsh" "ls" = probeInv p f) ∨
    ((resolveInv "/bin/zsh" "ls").timeoutSec = some 10 ∧
      (resolveInv "/bin/zsh" "ls").args.head? = some "man") :=
  C6_timeouts envQuiet2 "/bin/zsh" "ls" true none (resolveInv "/bin/zsh" "ls")
    (by rw [show (get_command_documentation envQuiet2 "/bin/zsh" "ls" true none).2 =
          [resolveInv "/bin/zsh" "ls"] from rfl]
        exact List.mem_singleton_self _)

/-- Counterexample for C6 as stated: the shell-based path resolver is spawned
with no explicit timeout whatsoever (the claim says it is bounded by a
10-second timeout). -/
theorem C6_counterexample :
    (get_command_documentation envQuiet "/bin/zsh" "ls" true none).2 =
        [resolveInv "/bin/zsh" "ls"] ∧
      (resolveInv "/bin/zsh" "ls").timeoutSec = none :=
  ⟨rfl, rfl⟩

theorem exists_ok {α : Type} {x : Except PyErr α} (h : ∀ e, x ≠ .error e) :
    ∃ s, x = .ok s := by
  rcases x with e | s
  · exact absurd rfl (h e)
  · exact ⟨s, rfl⟩

/-- Under an environment that raises no `FileNotFoundError`/`OSError`, the
body of `get_command_documentation` never propagates an exception. -/
theorem get_doc_core_no_err (env : Env)
    (henv : ∀ inv, env inv ≠ .fileNotFound ∧ env inv ≠ .osError)
    (shell m : String) (pe : Bool) (ms : Option Int) (e : PyErr) :
    (get_doc_core env shell m pe ms).1 ≠ .err e := by
  rcases hv : validName m with _ | _
  · simp [get_doc_core, hv]
  · obtain ⟨o, ho⟩ := get_command_path_no_raise shell m (henv _).1 (henv _).2
    rcases hgp : get_command_path env shell m with ⟨res0, t0⟩
    have hres : res0 = .ok o := by
      have h1 := congrArg Prod.fst hgp
      rw [ho] at h1
      exact h1.symm
    subst hres
    rcases o with _ | path
    · simp [get_doc_core, hv, hgp]
    · rcases hec : econ_stage env m path with ⟨eo, te⟩
      rcases hms : man_stage env m ms with ⟨mo, tm⟩
      rcases hsh : search_help_documentation env m path with ⟨hr, ts⟩
      rcases pe with _ | _ <;> rcases eo with _ | s <;> rcases mo with _ | s2 <;>
          by_cases hhr : hr ≠ "" <;>
        simp [get_doc_core, hv, hgp, hec, hms, hsh, hhr]

/-- `check_version_last` always returns a string. -/
theorem check_version_last_no_err (env : Env) (n p : String)
    (acc : List Invocation) (e : PyErr) :
    (check_version_last env n p acc).1 ≠ .error e := by
  rcases henv : env ⟨[p, "version"], some 5, none⟩ with r | _ | _ | _ | _
  · by_cases hc : r.returncode < 2 ∧ pyStrip r.stdout ≠ "" <;>
      simp [check_version_last, safe_execute, henv, hc]
  all_goals simp [check_version_last, safe_execute, henv]

/-- `check_version_rest` always returns a string. -/
theorem check_version_rest_no_err (env : Env) (n p : String)
    (acc : List Invocation) (e : PyErr) :
    (check_version_rest env n p acc).1 ≠ .error e := by
  rcases henv : env ⟨[p, "-V"], some 5, none⟩ with r | _ | _ | _ | _
  · by_cases hc : r.returncode < 2 ∧ pyStrip r.stdout ≠ ""
    · simp [check_version_rest, safe_execute, henv, hc]
    · have heval : (check_version_rest env n p acc).1 =
          (check_version_last env n p
            (acc ++ [⟨[p, "-V"], some 5, none⟩])).1 := by
        simp [check_version_rest, safe_execute, henv, hc]
      rw [heval]
      exact check_version_last_no_err env n p _ e
  all_goals
    have heval : (check_version_rest env n p acc).1 =
        (check_version_last env n p
          (acc ++ [⟨[p, "-V"], some 5, none⟩])).1 := by
      simp [check_version_rest, safe_execute, henv]
  all_goals
    rw [heval]
    exact check_version_last_no_err env n p _ e

/-- Under an environment that raises no `FileNotFoundError`/`OSError`,
`check_command_exists` never propagates an exception for a non-blank input. -/
theorem check_command_exists_no_err (env : Env)
    (henv : ∀ inv, env inv ≠ .fileNotFound ∧ env inv ≠ .osError)
    (shell command m : String) (rest : List String)
    (hsp : pySplit (pyStrip command) = m :: rest) (e : PyErr) :
    (check_command_exists env shell command).1 ≠ .error e := by
  rcases hv : validName m with _ | _
  · have heval : check_command_exists env shell command = (.ok (invalidMsg m), []) := by
      unfold check_command_exists
      rw [hsp]
      simp [hv]
    simp [heval]
  · obtain ⟨o, ho⟩ := get_command_path_no_raise shell m (henv _).1 (henv _).2
    rcases hgp : get_command_path env shell m with ⟨res0, t0⟩
    have hres : res0 = .ok o := by
      have h1 := congrArg Prod.fst hgp
      rw [ho] at h1
      exact h1.symm
    subst hres
    rcases o with _ | p
    · have heval : check_command_exists env shell command = (.ok (dneMsg m), t0) := by
        unfold check_command_exists
        rw [hsp]
        simp [hv, hgp]
      simp [heval]
    · rcases henv1 : env ⟨[p, "--version"], some 5, none⟩ with r1 | _ | _ | _ | _
      · by_cases hc : r1.returncode < 2 ∧ pyStrip r1.stdout ≠ ""
        · have heval : check_command_exists env shell command =
              (.ok (verMsg m p (pyStrip r1.stdout)),
               t0 ++ [⟨[p, "--version"], some 5, none⟩]) := by
            unfold check_command_exists
            rw [hsp]
            simp [hv, hgp, safe_execute, henv1, hc]
          simp [heval]
        · have heval : (check_command_exists env shell command).1 =
              (check_version_rest env m p
                (t0 ++ [⟨[p, "--version"], some 5, none⟩])).1 := by
            unfold check_command_exists
            rw [hsp]
            simp [hv, hgp, safe_execute, henv1, hc]
          rw [heval]
          exact check_version_rest_no_err env m p _ e
      all_goals
        have heval : (check_command_exists env shell command).1 =
            (check_version_rest env m p
              (t0 ++ [⟨[p, "--version"], some 5, none⟩])).1 := by
          unfold check_command_exists
          rw [hsp]
          simp [hv, hgp, safe_execute, henv1]
      all_goals
        rw [heval]
        exact check_version_rest_no_err env m p _ e

/-- Claim C3 (amended): for every input with at least one token, and under an
environment in which `subprocess.run` never raises `FileNotFoundError` or
`OSError` (timeouts and `SubprocessError` may occur freely), both entry
points return a result string and never raise. -/
theorem C3_no_raise (env : Env) (shell command : String) (pe : Bool)
    (ms : Option Int)
    (henv : ∀ inv, env inv ≠ .fileNotFound ∧ env inv ≠ .osError)
    (m : String) (rest : List String)
    (hsp : pySplit (pyStrip command) = m :: rest) :
    (∃ s, (get_command_documentation env shell command pe ms).1 = .ok s) ∧
      ∃ s, (check_command_exists env shell command).1 = .ok s := by
  constructor
  · apply exists_ok
    intro e
    have heval : get_command_documentation env shell command pe ms =
        (match get_doc_core env shell m pe ms with
         | (.err e2, t) => (.error e2, t)
         | (.msg s, t) => ((.ok s : Except PyErr String), t)
         | (.noDoc, t) => (.ok (noDocMsg command), t)) := by
      unfold get_command_documentation
      rw [hsp]
    rcases hc : get_doc_core env shell m pe ms with ⟨o, t⟩
    rw [hc] at heval
    rcases o with e2 | s
    · have h2 : (get_doc_core env shell m pe ms).1 = .err e2 := by rw [hc]
      exact absurd h2 (get_doc_core_no_err env henv shell m pe ms e2)
    all_goals rw [heval]; simp
  · exact exists_ok fun e => check_command_exists_no_err env henv shell command m rest hsp e

/-- Witness for C3 (amended): a benign environment and the input `ls`. -/
theorem C3_witness :
    (∃ s, (get_command_documentation envQuiet "/bin/zsh" "ls" true none).1 = .ok s) ∧
      ∃ s, (check_command_exists envQuiet "/bin/zsh" "ls").1 = .ok s :=
  C3_no_raise envQuiet "/bin/zsh" "ls" true none
    (fun _ => ⟨by simp [envQuiet], by simp [envQuiet]⟩) "ls" [] (by rfl)

/-- Counterexample for C3 as stated: the all-whitespace input makes
`parts[0]` raise `IndexError` in both entry points before any handling. -/
theorem C3_counterexample :
    get_command_documentation envQuiet "/bin/zsh" "" true none =
        (.error .indexError, []) ∧
      check_command_exists envQuiet "/bin/zsh" "" = (.error .indexError, []) :=
  ⟨rfl, rfl⟩

/-- Claim C5 (amended): `get_command_path` returns `None` whenever the lookup
completes with no stdout line beginning with `/` (regardless of exit code),
or raises `subprocess.SubprocessError` (including a timeout). -/
theorem C5_resolver_not_found (env : Env) (shell n : String)
    (h : env (resolveInv shell n) = .timedOut ∨
      env (resolveInv shell n) = .subprocessError ∨
      ∃ r, env (resolveInv shell n) = .ok r ∧ firstSlashLine r.stdout = none) :
    (get_command_path env shell n).1 = .ok none := by
  rcases h with h | h | ⟨r, h, hs⟩ <;> simp [get_command_path, h]
  exact hs

/-- Witness for C5 (amended): a spawn failure is converted to `None`. -/
theorem C5_witness :
    (get_command_path envSpawnFail "/bin/zsh" "ls").1 = .ok none :=
  C5_resolver_not_found envSpawnFail "/bin/zsh" "ls" (Or.inr (Or.inl rfl))

/-- Counterexample for C5 as stated: a `FileNotFoundError` raised by the
lookup propagates out of `get_command_path` instead of becoming `None` —
the `except` clause at source line 46 catches only
`subprocess.SubprocessError`. -/
theorem C5_counterexample :
    get_command_path envNoShell "/bin/zsh" "ls" =
      (.error .fileNotFound, [resolveInv "/bin/zsh" "ls"]) := rfl

/-- Claim C4 (amended): within the classifier chain, a probe's output is
returned only when the process completed with exit code strictly below 2
(negative, signal-kill codes included) and stdout non-empty after trimming;
otherwise the chain returns the empty string. -/
theorem C4_candidate_rule (env : Env) (m p : String) :
    (search_help_documentation env m p).1 = "" ∨
    ∃ flag res, flag ∈ (["--help", "-h", "help"] : List String) ∧
      env (probeInv p flag) = .ok res ∧ res.returncode < 2 ∧
      pyStrip res.stdout ≠ "" ∧
      (search_help_documentation env m p).1 = helpMsg m (pyStrip res.stdout) := by
  rw [search_help_eq]
  rcases h1 : classifyProbe m genuineMain (safe_execute env [p, "--help"] 5).1 with _ | s1
  · rcases h2 : classifyProbe m genuineMain (safe_execute env [p, "-h"] 5).1 with _ | s2
    · rcases h3 : classifyProbe m genuineSub (safe_execute env [p, "help"] 5).1 with _ | s3
      · exact Or.inl rfl
      · obtain ⟨res, hr, hc1, hc2, -, hs⟩ := classifyProbe_eq_some h3
        exact Or.inr ⟨"help", res, by simp, env_of_safe_some hr, hc1, hc2, hs⟩
    · obtain ⟨res, hr, hc1, hc2, -, hs⟩ := classifyProbe_eq_some h2
      exact Or.inr ⟨"-h", res, by simp, env_of_safe_some hr, hc1, hc2, hs⟩
  · obtain ⟨res, hr, hc1, hc2, -, hs⟩ := classifyProbe_eq_some h1
    exact Or.inr ⟨"--help", res, by simp, env_of_safe_some hr, hc1, hc2, hs⟩

/-- Counterexample for C4 as stated: a probe whose process was killed by a
signal (exit code `-1`, neither 0 nor 1) is accepted and its output returned,
because the source test is `returncode < 2`. -/
theorem C4_counterexample :
    envCrashHelp (probeInv "/bin/foo" "--help") = .ok ⟨-1, "usage: foo", ""⟩ ∧
      search_help_documentation envCrashHelp "foo" "/bin/foo" =
        ("Help output for 'foo':\n\nusage: foo", [probeInv "/bin/foo" "--help"]) :=
  ⟨rfl, rfl⟩

/-- Claim C1 (code evaluation): on the two-token input `uv run`, in a system
state where the combined probe `uv run --help` would print usage text, the
code never spawns any invocation containing the token `run` and falls
through to the no-documentation message — `get_command_documentation` has no
subcommand handling at all, although the spec (and the repository's own
tests) describe a combined-subcommand `--help` probe tried first. -/
theorem C1_no_subcommand_probe :
    get_command_documentation envUvRun "/bin/zsh" "uv run" true none =
      (.ok "No documentation available for 'uv run'",
       [resolveInv "/bin/zsh" "uv", probeInv "/usr/bin/uv" "--help",
        probeInv "/usr/bin/uv" "-h", probeInv "/usr/bin/uv" "help",
        probeInv "/usr/bin/uv" "--help", ⟨["man", "uv"], some 10, none⟩]) ∧
      ∀ inv ∈ (get_command_documentation envUvRun "/bin/zsh" "uv run" true none).2,
        "run" ∉ inv.args :=
  ⟨rfl, by decide⟩

/-- Claim C2 (amended): when the classifier chain produced nothing, the
direct `--help` re-check also fails (empty raw stdout or exit code at least
2), and the manual viewer exits 0, the result is exactly the manual message
built from the `col -b` output. -/
theorem C2_manual_fallback (env : Env) (shell command m : String)
    (rest : List String) (ms : Option Int) (path : String)
    (r1 mr cr : ExecResult) (ts : List Invocation)
    (hsp : pySplit (pyStrip command) = m :: rest)
    (hv : validName m = true)
    (hgp : (get_command_path env shell m).1 = .ok (some path))
    (hsearch : search_help_documentation env m path = ("", ts))
    (hre : env (probeInv path "--help") = .ok r1)
    (hrefail : r1.stdout = "" ∨ 2 ≤ r1.returncode)
    (hman : env (manInv ms m) = .ok mr)
    (hmr0 : mr.returncode = 0)
    (hcol : env (colInv mr.stdout) = .ok cr) :
    (get_command_documentation env shell command true ms).1 =
      .ok (manMsg m cr.stdout) := by
  have heval : get_command_documentation env shell command true ms =
      (match get_doc_core env shell m true ms with
       | (.err e2, t) => (.error e2, t)
       | (.msg s, t) => ((.ok s : Except PyErr String), t)
       | (.noDoc, t) => (.ok (noDocMsg command), t)) := by
    unfold get_command_documentation
    rw [hsp]
  have hneg : ¬(r1.stdout ≠ "" ∧ r1.returncode < 2) := by
    rcases hrefail with h | h
    · exact fun hc => hc.1 h
    · exact fun hc => absurd hc.2 (by omega)
  have hecon : ∃ te, econ_stage env m path = (none, te) := by
    by_cases hp : path ≠ ""
    · refine ⟨ts ++ [probeInv path "--help"], ?_⟩
      simp [econ_stage, hsearch, hp, safe_execute, probeInv] at hre ⊢
      rw [hre]
      simp [hneg]
    · push_neg at hp
      subst hp
      exact ⟨ts, by simp [econ_stage, hsearch]⟩
  have hmanst : man_stage env m ms =
      (some (manMsg m cr.stdout), [manInv ms m, colInv mr.stdout]) := by
    simp [man_stage, hman, hmr0, hcol]
  obtain ⟨te, hecon⟩ := hecon
  rcases hgp2 : get_command_path env shell m with ⟨res0, t0⟩
  have hres : res0 = .ok (some path) := by
    have h1 := congrArg Prod.fst hgp2
    rw [hgp] at h1
    exact h1.symm
  subst hres
  have hcore : get_doc_core env shell m true ms =
      (.msg (manMsg m cr.stdout), t0 ++ te ++ [manInv ms m, colInv mr.stdout]) := by
    simp [get_doc_core, hv, hgp2, hecon, hmanst]
  rw [hcore] at heval
  rw [heval]

/-- Witness for C2 (amended): concrete state where probing yields nothing
and the manual viewer succeeds. -/
theorem C2_witness :
    (get_command_documentation envManOnly "/bin/zsh" "ls" true none).1 =
      .ok (manMsg "ls" "LS(1) FORMATTED") :=
  C2_manual_fallback envManOnly "/bin/zsh" "ls" "ls" [] none "/bin/ls"
    ⟨0, "", ""⟩ ⟨0, "RAW MAN TEXT", ""⟩ ⟨0, "LS(1) FORMATTED", ""⟩
    [probeInv "/bin/ls" "--help", probeInv "/bin/ls" "-h", probeInv "/bin/ls" "help"]
    rfl rfl rfl rfl rfl (Or.inl rfl) rfl rfl rfl

/-- Counterexample for C2 as stated: the `--help` probe prints non-genuine,
non-empty text with exit 0, all three classifier probes fail, and the manual
viewer exits 0 with formatted text — yet the result is the raw `--help`
output (returned by the direct re-check at source lines 163-166), not the
manual page. -/
theorem C2_counterexample :
    envOddHelp (manInv none "ls") = .ok ⟨0, "RAW MAN TEXT", ""⟩ ∧
      (get_command_documentation envOddHelp "/bin/zsh" "ls" true none).1 =
        .ok "Help output for 'ls':\n\ngibberish xyz" :=
  ⟨rfl, rfl⟩

theorem verMsg_ne_dneMsg (m p out : String) : verMsg m p out ≠ dneMsg m := by
  intro h
  have hd := congrArg String.data h
  simp only [verMsg, dneMsg, String.data_append, List.append_assoc] at hd
  have h1 := List.append_cancel_left hd
  have h2 := List.append_cancel_left h1
  simp only [List.cons_append] at h2
  injection h2 with ha hb
  injection hb with hc hdd
  injection hdd with he hf
  exact absurd he (by decide)

theorem plainExistsMsg_ne_dneMsg (m p : String) : plainExistsMsg m p ≠ dneMsg m := by
  intro h
  have hd := congrArg String.data h
  simp only [plainExistsMsg, dneMsg, String.data_append, List.append_assoc] at hd
  have h1 := List.append_cancel_left hd
  have h2 := List.append_cancel_left h1
  simp only [List.cons_append] at h2
  injection h2 with ha hb
  injection hb with hc hdd
  injection hdd with he hf
  exact absurd he (by decide)

/-- Evaluation of the final `version` attempt in terms of the acceptance
predicate. -/
theorem check_version_last_eval (env : Env) (n p : String)
    (acc : List Invocation) :
    check_version_last env n p acc =
      (.ok (if version_accepted env p "version" then
          verMsg n p (version_out env p "version")
        else plainExistsMsg n p),
       acc ++ [probeInv p "version"]) := by
  rcases henv : env (probeInv p "version") with r | _ | _ | _ | _
  · by_cases hc : r.returncode < 2 ∧ pyStrip r.stdout ≠ ""
    · have hacc : version_accepted env p "version" = true := by
        simp [version_accepted, henv, hc.1, hc.2]
      simp [check_version_last, safe_execute, probeInv] at henv ⊢
      rw [henv]
      simp [hc, hacc, version_out, version_accepted, henv, probeInv]
    · have hacc : version_accepted env p "version" = false := by
        simp only [version_accepted, henv, Bool.and_eq_false_iff]
        rcases not_and_or.mp hc with h | h
        · left
          simpa using h
        · right
          simpa using not_not.mp h
      simp [check_version_last, safe_execute, probeInv] at henv ⊢
      rw [henv]
      simp [hc, hacc]
  all_goals
    have hacc : version_accepted env p "version" = false := by
      simp [version_accepted, henv]
  all_goals
    simp [check_version_last, safe_execute, probeInv] at henv ⊢
    rw [henv]
    simp [hacc]

/-- Evaluation of the `-V` and `version` attempts in terms of the acceptance
predicate. -/
theorem check_version_rest_eval (env : Env) (n p : String)
    (acc : List Invocation) :
    (check_version_rest env n p acc).1 =
      .ok (if version_accepted env p "-V" then verMsg n p (version_out env p "-V")
        else if version_accepted env p "version" then
          verMsg n p (version_out env p "version")
        else plainExistsMsg n p) := by
  rcases henv : env (probeInv p "-V") with r | _ | _ | _ | _
  · by_cases hc : r.returncode < 2 ∧ pyStrip r.stdout ≠ ""
    · have hacc : version_accepted env p "-V" = true := by
        simp [version_accepted, henv, hc.1, hc.2]
      simp [check_version_rest, safe_execute, probeInv] at henv ⊢
      rw [henv]
      simp [hc, hacc, version_out, version_accepted, henv, probeInv]
    · have hacc : version_accepted env p "-V" = false := by
        simp only [version_accepted, henv, Bool.and_eq_false_iff]
        rcases not_and_or.mp hc with h | h
        · left
          simpa using h
        · right
          simpa using not_not.mp h
      simp [check_version_rest, safe_execute, probeInv] at henv ⊢
      rw [henv]
      simp [hc, hacc]
      rw [check_version_last_eval]
  all_goals
    have hacc : version_accepted env p "-V" = false := by
      simp [version_accepted, henv]
  all_goals
    simp [check_version_rest, safe_execute, probeInv] at henv ⊢
    rw [henv]
    simp [hacc]
    rw [check_version_last_eval]

/-- Claim C10 (amended): for a resolvable command, `check_command_exists`
never produces the does-not-exist message; it tries `--version`, `-V`,
`version` in that order under the acceptance rule "completed, exit code
strictly below 2, stdout non-empty after trimming", returns the first
accepted probe's stripped output in the version message, and otherwise the
plain existence message. -/
theorem C10_version_chain (env : Env) (shell command m : String)
    (rest : List String) (path : String)
    (hsp : pySplit (pyStrip command) = m :: rest)
    (hv : validName m = true)
    (hgp : (get_command_path env shell m).1 = .ok (some path)) :
    (check_command_exists env shell command).1 =
      .ok (if version_accepted env path "--version" then
          verMsg m path (version_out env path "--version")
        else if version_accepted env path "-V" then
          verMsg m path (version_out env path "-V")
        else if version_accepted env path "version" then
          verMsg m path (version_out env path "version")
        else plainExistsMsg m path) ∧
      (check_command_exists env shell command).1 ≠ .ok (dneMsg m) := by
  rcases hgp2 : get_command_path env shell m with ⟨res0, t0⟩
  have hres : res0 = .ok (some path) := by
    have h1 := congrArg Prod.fst hgp2
    rw [hgp] at h1
    exact h1.symm
  subst hres
  have hmain : (check_command_exists env shell command).1 =
      .ok (if version_accepted env path "--version" then
          verMsg m path (version_out env path "--version")
        else if version_accepted env path "-V" then
          verMsg m path (version_out env path "-V")
        else if version_accepted env path "version" then
          verMsg m path (version_out env path "version")
        else plainExistsMsg m path) := by
    rcases henv : env (probeInv path "--version") with r | _ | _ | _ | _
    · by_cases hc : r.returncode < 2 ∧ pyStrip r.stdout ≠ ""
      · have hacc : version_accepted env path "--version" = true := by
          simp [version_accepted, henv, hc.1, hc.2]
        have hout : version_out env path "--version" = pyStrip r.stdout := by
          simp [version_out, henv]
        rw [hacc, hout]
        unfold check_command_exists
        rw [hsp]
        simp [probeInv] at henv
        simp [hv, hgp2, safe_execute, henv, hc]
      · have hacc : version_accepted env path "--version" = false := by
          simp only [version_accepted, henv, Bool.and_eq_false_iff]
          rcases not_and_or.mp hc with h | h
          · left
            simpa using h
          · right
            simpa using not_not.mp h
        rw [hacc]
        have hstep : (check_command_exists env shell command).1 =
            (check_version_rest env m path
              (t0 ++ [probeInv path "--version"])).1 := by
          unfold check_command_exists
          rw [hsp]
          simp [probeInv] at henv
          simp [hv, hgp2, safe_execute, henv, hc, probeInv]
        rw [hstep, check_version_rest_eval]
        simp
    all_goals
      have hacc : version_accepted env path "--version" = false := by
        simp [version_accepted, henv]
    all_goals
      rw [hacc]
      have hstep : (check_command_exists env shell command).1 =
          (check_version_rest env m path
            (t0 ++ [probeInv path "--version"])).1 := by
        unfold check_command_exists
        rw [hsp]
        simp [probeInv] at henv
        simp [hv, hgp2, safe_execute, henv, probeInv]
      rw [hstep, check_version_rest_eval]
      simp
  refine ⟨hmain, ?_⟩
  rw [hmain]
  intro hcontra
  have heq := Except.ok.inj hcontra
  by_cases h1 : version_accepted env path "--version" = true <;>
    by_cases h2 : version_accepted env path "-V" = true <;>
    by_cases h3 : version_accepted env path "version" = true <;>
    simp [h1, h2, h3] at heq <;>
    first
      | exact verMsg_ne_dneMsg _ _ _ heq
      | exact plainExistsMsg_ne_dneMsg _ _ heq

/-- Witness for C10 (amended): a resolvable command whose version probes all
exit 2 yields the plain existence message, never the does-not-exist one. -/
theorem C10_witness :
    (check_command_exists envNoVersion "/bin/zsh" "ls").1 =
        .ok (plainExistsMsg "ls" "/bin/ls") ∧
      (check_command_exists envNoVersion "/bin/zsh" "ls").1 ≠ .ok (dneMsg "ls") := by
  have h := C10_version_chain envNoVersion "/bin/zsh" "ls" "ls" [] "/bin/ls"
    rfl rfl rfl
  refine ⟨?_, h.2⟩
  rw [h.1]
  rfl

/-- Counterexample for C10 as stated: `--version` dies with signal-kill exit
code `-9` (neither 0 nor 1) while emitting text; under the claim's rule this
probe must be rejected and `-V`'s genuine output returned, but the code
accepts the crashed probe's output because its test is `returncode < 2`. -/
theorem C10_counterexample :
    envCrashVersion (probeInv "/bin/foo" "--version") =
        .ok ⟨-9, "garbled crash output", ""⟩ ∧
      envCrashVersion (probeInv "/bin/foo" "-V") = .ok ⟨0, "foo 1.2.3", ""⟩ ∧
      (check_command_exists envCrashVersion "/bin/zsh" "foo").1 =
        .ok "Command 'foo' exists at /bin/foo.\nVersion information: garbled crash output" :=
  ⟨rfl, rfl, rfl⟩

theorem isPrefixOf_append_left {p q l : List Char}
    (h : (p ++ q).isPrefixOf l = true) : p.isPrefixOf l = true := by
  rw [List.isPrefixOf_iff_prefix] at h ⊢
  exact (List.prefix_append p q).trans h

theorem hasSub_of_append (p q : List Char) :
    ∀ l, hasSubList (p ++ q) l = true → hasSubList p l = true := by
  intro l
  induction l with
  | nil =>
    intro h
    exact isPrefixOf_append_left h
  | cons c rest ih =>
    intro h
    simp only [hasSubList, Bool.or_eq_true] at h ⊢
    rcases h with h | h
    · exact Or.inl (isPrefixOf_append_left h)
    · exact Or.inr (ih h)

/-- Claim C9 (confirmed): the source classifier for `--help`/`-h` output is
equivalent to "case-insensitively contains usage, options, help or version,
or matches the `\d+\.\d+\.\d+` pattern", and the `help` subcommand classifier
to the narrower "case-insensitively contains usage, options or help" with no
version-number fallback — the redundant cased alternatives of the source
regex collapse under `re.IGNORECASE`, and `USAGE:` is subsumed by `usage`. -/
theorem C9_classifier_iff (out : String) :
    (genuineMain out = true ↔ specGenuineMain out = true) ∧
      (genuineSub out = true ↔ specGenuineSub out = true) := by
  constructor
  · constructor
    · intro h
      simp only [genuineMain, mainHelpPattern, List.any_cons, List.any_nil,
        Bool.or_eq_true, Bool.or_false] at h
      simp only [specGenuineMain, Bool.or_eq_true]
      rcases h with (h | h | h | h | h | h | h | h | h | h | h | h) | h
      · exact Or.inl (Or.inl (Or.inl (Or.inl h)))
      · exact Or.inl (Or.inl (Or.inl (Or.inr h)))
      · exact Or.inl (Or.inl (Or.inr h))
      · exact Or.inl (Or.inl (Or.inl (Or.inl h)))
      · exact Or.inl (Or.inl (Or.inl (Or.inr h)))
      · exact Or.inl (Or.inl (Or.inr h))
      · exact Or.inl (Or.inl (Or.inl (Or.inl h)))
      · exact Or.inl (Or.inl (Or.inl (Or.inr h)))
      · exact Or.inl (Or.inl (Or.inr h))
      · exact Or.inl (Or.inl (Or.inl (Or.inl
          (hasSub_of_append ("usage".data.map Char.toLower) [':'] _ h))))
      · exact Or.inl (Or.inr h)
      · exact Or.inl (Or.inr h)
      · exact Or.inr h
    · intro h
      simp only [specGenuineMain, Bool.or_eq_true] at h
      simp only [genuineMain, mainHelpPattern, List.any_cons, List.any_nil,
        Bool.or_eq_true, Bool.or_false]
      rcases h with (((h | h) | h) | h) | h
      · exact Or.inl (Or.inl h)
      · exact Or.inl (Or.inr (Or.inl h))
      · exact Or.inl (Or.inr (Or.inr (Or.inl h)))
      · exact Or.inl (Or.inr (Or.inr (Or.inr (Or.inr (Or.inr (Or.inr (Or.inr
          (Or.inr (Or.inr (Or.inr (Or.inl h)))))))))))
      · exact Or.inr h
  · constructor
    · intro h
      simp only [genuineSub, List.any_cons, List.any_nil,
        Bool.or_eq_true, Bool.or_false] at h
      simp only [specGenuineSub, Bool.or_eq_true]
      rcases h with h | h | h | h | h | h | h | h | h
      · exact Or.inl (Or.inl h)
      · exact Or.inl (Or.inr h)
      · exact Or.inr h
      · exact Or.inl (Or.inl h)
      · exact Or.inl (Or.inr h)
      · exact Or.inr h
      · exact Or.inl (Or.inl h)
      · exact Or.inl (Or.inr h)
      · exact Or.inr h
    · intro h
      simp only [specGenuineSub, Bool.or_eq_true] at h
      simp only [genuineSub, List.any_cons, List.any_nil,
        Bool.or_eq_true, Bool.or_false]
      rcases h with (h | h) | h
      · exact Or.inl h
      · exact Or.inr (Or.inl h)
      · exact Or.inr (Or.inr (Or.inl h))

theorem rv_ne_probe (shell n p f : String) : resolveInv shell n ≠ probeInv p f := by
  simp [resolveInv, probeInv]

theorem rv_ne_man (shell n : String) (ms : Option Int) (m : String) :
    resolveInv shell n ≠ manInv ms m := by
  simp [resolveInv, manInv]

theorem probe_ne_man (p f : String) (ms : Option Int) (m : String) :
    probeInv p f ≠ manInv ms m := by
  simp [probeInv, manInv]

theorem probe_help_ne_h (p : String) : probeInv p "--help" ≠ probeInv p "-h" := by
  simp [probeInv]

theorem probe_help_ne_sub (p : String) : probeInv p "--help" ≠ probeInv p "help" := by
  simp [probeInv]

theorem probe_h_ne_sub (p : String) : probeInv p "-h" ≠ probeInv p "help" := by
  simp [probeInv]

theorem before_firstIdx {t : List Invocation} {a b : Invocation} {i j : Nat}
    (ha : firstIdx a t = some i) (hb : firstIdx b t = some j) (hij : i < j) :
    before t a b := by
  intro j' hj'
  rw [hb] at hj'
  cases hj'
  exact ⟨i, ha, hij⟩

theorem before_none {t : List Invocation} {a b : Invocation}
    (hb : firstIdx b t = none) : before t a b := by
  intro j hj
  rw [hb] at hj
  cases hj

/-- The trace of `get_command_documentation` is exactly the trace of its
body once the first token is known. -/
theorem get_command_documentation_trace (env : Env) (shell command : String)
    (pe : Bool) (ms : Option Int) (m : String) (rest : List String)
    (hsp : pySplit (pyStrip command) = m :: rest) :
    (get_command_documentation env shell command pe ms).2 =
      (get_doc_core env shell m pe ms).2 := by
  have heval : get_command_documentation env shell command pe ms =
      (match get_doc_core env shell m pe ms with
       | (.err e2, t) => (.error e2, t)
       | (.msg s, t) => ((.ok s : Except PyErr String), t)
       | (.noDoc, t) => (.ok (noDocMsg command), t)) := by
    unfold get_command_documentation
    rw [hsp]
  rcases hc : get_doc_core env shell m pe ms with ⟨o, t⟩
  rw [hc] at heval
  rw [heval]
  cases o <;> rfl

/-- Claim C8 (confirmed): with `prefer_economic = true` and a resolved path,
the `--help`, `-h` and `help` probes are first attempted in exactly that
order (each later probe occurs only after the earlier ones), and the `man`
invocation occurs only after all three probes. -/
theorem C8_probe_order (env : Env) (shell command m : String)
    (rest : List String) (ms : Option Int) (path : String)
    (hsp : pySplit (pyStrip command) = m :: rest)
    (hv : validName m = true)
    (hgp : (get_command_path env shell m).1 = .ok (some path)) :
    before (get_command_documentation env shell command true ms).2
        (probeInv path "--help") (probeInv path "-h") ∧
      before (get_command_documentation env shell command true ms).2
        (probeInv path "-h") (probeInv path "help") ∧
      before (get_command_documentation env shell command true ms).2
        (probeInv path "help") (manInv ms m) ∧
      before (get_command_documentation env shell command true ms).2
        (probeInv path "--help") (probeInv path "help") ∧
      before (get_command_documentation env shell command true ms).2
        (probeInv path "--help") (manInv ms m) ∧
      before (get_command_documentation env shell command true ms).2
        (probeInv path "-h") (manInv ms m) := by
  rw [get_command_documentation_trace env shell command true ms m rest hsp]
  rcases hgp2 : get_command_path env shell m with ⟨res0, t0⟩
  have hres : res0 = .ok (some path) := by
    have h1 := congrArg Prod.fst hgp2
    rw [hgp] at h1
    exact h1.symm
  subst hres
  have ht0 : t0 = [resolveInv shell m] := by
    have h3 := congrArg Prod.snd hgp2
    rw [get_command_path_trace] at h3
    exact h3.symm
  subst ht0
  rcases econ_stage_trace env m path with
    ⟨s, hec⟩ | ⟨s, hec⟩ | ⟨s, hec⟩ | ⟨s, hec⟩ | hec | ⟨te, hec, hte⟩
  · have htr : (get_doc_core env shell m true ms).2 =
        [resolveInv shell m, probeInv path "--help"] := by
      simp [get_doc_core, hv, hgp2, hec]
    rw [htr]
    have e2 : firstIdx (probeInv path "-h")
        [resolveInv shell m, probeInv path "--help"] = none := by
      simp [firstIdx, probes3, rv_ne_probe, rv_ne_man, probe_ne_man, probe_help_ne_h,
          probe_help_ne_sub, probe_h_ne_sub]
    have e3 : firstIdx (probeInv path "help")
        [resolveInv shell m, probeInv path "--help"] = none := by
      simp [firstIdx, probes3, rv_ne_probe, rv_ne_man, probe_ne_man, probe_help_ne_h,
          probe_help_ne_sub, probe_h_ne_sub]
    have e4 : firstIdx (manInv ms m)
        [resolveInv shell m, probeInv path "--help"] = none := by
      simp [firstIdx, probes3, rv_ne_probe, rv_ne_man, probe_ne_man, probe_help_ne_h,
          probe_help_ne_sub, probe_h_ne_sub]
    exact ⟨before_none e2, before_none e3, before_none e4, before_none e3,
      before_none e4, before_none e4⟩
  · have htr : (get_doc_core env shell m true ms).2 =
        [resolveInv shell m, probeInv path "--help", probeInv path "-h"] := by
      simp [get_doc_core, hv, hgp2, hec]
    rw [htr]
    have e1 : firstIdx (probeInv path "--help")
        [resolveInv shell m, probeInv path "--help", probeInv path "-h"] =
          some 1 := by
      simp [firstIdx, probes3, rv_ne_probe, rv_ne_man, probe_ne_man, probe_help_ne_h,
          probe_help_ne_sub, probe_h_ne_sub]
    have e2 : firstIdx (probeInv path "-h")
        [resolveInv shell m, probeInv path "--help", probeInv path "-h"] =
          some 2 := by
      simp [firstIdx, probes3, rv_ne_probe, rv_ne_man, probe_ne_man, probe_help_ne_h,
          probe_help_ne_sub, probe_h_ne_sub]
    have e3 : firstIdx (probeInv path "help")
        [resolveInv shell m, probeInv path "--help", probeInv path "-h"] =
          none := by
      simp [firstIdx, probes3, rv_ne_probe, rv_ne_man, probe_ne_man, probe_help_ne_h,
          probe_help_ne_sub, probe_h_ne_sub]
    have e4 : firstIdx (manInv ms m)
        [resolveInv shell m, probeInv path "--help", probeInv path "-h"] =
          none := by
      simp [firstIdx, probes3, rv_ne_probe, rv_ne_man, probe_ne_man, probe_help_ne_h,
          probe_help_ne_sub, probe_h_ne_sub]
    exact ⟨before_firstIdx e1 e2 (by omega), before_none e3, before_none e4,
      before_none e3, before_none e4, before_none e4⟩
  · have htr : (get_doc_core env shell m true ms).2 =
        resolveInv shell m :: probes3 path := by
      simp [get_doc_core, hv, hgp2, hec]
    rw [htr]
    have e1 : firstIdx (probeInv path "--help")
        (resolveInv shell m :: probes3 path) = some 1 := by
      simp [firstIdx, probes3, rv_ne_probe, rv_ne_man, probe_ne_man, probe_help_ne_h,
          probe_help_ne_sub, probe_h_ne_sub]
    have e2 : firstIdx (probeInv path "-h")
        (resolveInv shell m :: probes3 path) = some 2 := by
      simp [firstIdx, probes3, rv_ne_probe, rv_ne_man, probe_ne_man, probe_help_ne_h,
          probe_help_ne_sub, probe_h_ne_sub]
    have e3 : firstIdx (probeInv path "help")
        (resolveInv shell m :: probes3 path) = some 3 := by
      simp [firstIdx, probes3, rv_ne_probe, rv_ne_man, probe_ne_man, probe_help_ne_h,
          probe_help_ne_sub, probe_h_ne_sub]
    have e4 : firstIdx (manInv ms m)
        (resolveInv shell m :: probes3 path) = none := by
      simp [firstIdx, probes3, rv_ne_probe, rv_ne_man, probe_ne_man, probe_help_ne_h,
          probe_help_ne_sub, probe_h_ne_sub]
    exact ⟨before_firstIdx e1 e2 (by omega), before_firstIdx e2 e3 (by omega),
      before_none e4, before_firstIdx e1 e3 (by omega), before_none e4,
      before_none e4⟩
  · have htr : (get_doc_core env shell m true ms).2 =
        resolveInv shell m :: (probes3 path ++ [probeInv path "--help"]) := by
      simp [get_doc_core, hv, hgp2, hec]
    rw [htr]
    have e1 : firstIdx (probeInv path "--help")
        (resolveInv shell m :: (probes3 path ++ [probeInv path "--help"])) =
          some 1 := by
      simp [firstIdx, probes3, rv_ne_probe, rv_ne_man, probe_ne_man, probe_help_ne_h,
          probe_help_ne_sub, probe_h_ne_sub]
    have e2 : firstIdx (probeInv path "-h")
        (resolveInv shell m :: (probes3 path ++ [probeInv path "--help"])) =
          some 2 := by
      simp [firstIdx, probes3, rv_ne_probe, rv_ne_man, probe_ne_man, probe_help_ne_h,
          probe_help_ne_sub, probe_h_ne_sub]
    have e3 : firstIdx (probeInv path "help")
        (resolveInv shell m :: (probes3 path ++ [probeInv path "--help"])) =
          some 3 := by
      simp [firstIdx, probes3, rv_ne_probe, rv_ne_man, probe_ne_man, probe_help_ne_h,
          probe_help_ne_sub, probe_h_ne_sub]
    have e4 : firstIdx (manInv ms m)
        (resolveInv shell m :: (probes3 path ++ [probeInv path "--help"])) =
          none := by
      simp [firstIdx, probes3, rv_ne_probe, rv_ne_man, probe_ne_man, probe_help_ne_h,
          probe_help_ne_sub, probe_h_ne_sub]
    exact ⟨before_firstIdx e1 e2 (by omega), before_firstIdx e2 e3 (by omega),
      before_none e4, before_firstIdx e1 e3 (by omega), before_none e4,
      before_none e4⟩
  · rcases hms : man_stage env m ms with ⟨mo, tm⟩
    have htm : tm = [manInv ms m] ∨ ∃ d, tm = [manInv ms m, colInv d] := by
      have h6 : (man_stage env m ms).2 = tm := by rw [hms]
      rw [← h6]
      exact man_stage_trace env m ms
    have htr : (get_doc_core env shell m true ms).2 =
        resolveInv shell m :: (probes3 path ++ tm) := by
      rcases mo with _ | s2 <;> simp [get_doc_core, hv, hgp2, hec, hms]
    rcases htm with h2 | ⟨d, h2⟩ <;> subst h2 <;> rw [htr]
    · have e1 : firstIdx (probeInv path "--help")
          (resolveInv shell m :: (probes3 path ++ [manInv ms m])) = some 1 := by
        simp [firstIdx, probes3, rv_ne_probe, rv_ne_man, probe_ne_man, probe_help_ne_h,
          probe_help_ne_sub, probe_h_ne_sub]
      have e2 : firstIdx (probeInv path "-h")
          (resolveInv shell m :: (probes3 path ++ [manInv ms m])) = some 2 := by
        simp [firstIdx, probes3, rv_ne_probe, rv_ne_man, probe_ne_man, probe_help_ne_h,
          probe_help_ne_sub, probe_h_ne_sub]
      have e3 : firstIdx (probeInv path "help")
          (resolveInv shell m :: (probes3 path ++ [manInv ms m])) = some 3 := by
        simp [firstIdx, probes3, rv_ne_probe, rv_ne_man, probe_ne_man, probe_help_ne_h,
          probe_help_ne_sub, probe_h_ne_sub]
      have e4 : firstIdx (manInv ms m)
          (resolveInv shell m :: (probes3 path ++ [manInv ms m])) = some 4 := by
        simp [firstIdx, probes3, rv_ne_probe, rv_ne_man, probe_ne_man, probe_help_ne_h,
          probe_help_ne_sub, probe_h_ne_sub]
      exact ⟨before_firstIdx e1 e2 (by omega), before_firstIdx e2 e3 (by omega),
        before_firstIdx e3 e4 (by omega), before_firstIdx e1 e3 (by omega),
        before_firstIdx e1 e4 (by omega), before_firstIdx e2 e4 (by omega)⟩
    · have e1 : firstIdx (probeInv path "--help")
          (resolveInv shell m :: (probes3 path ++ [manInv ms m, colInv d])) =
            some 1 := by
        simp [firstIdx, probes3, rv_ne_probe, rv_ne_man, probe_ne_man, probe_help_ne_h,
          probe_help_ne_sub, probe_h_ne_sub]
      have e2 : firstIdx (probeInv path "-h")
          (resolveInv shell m :: (probes3 path ++ [manInv ms m, colInv d])) =
            some 2 := by
        simp [firstIdx, probes3, rv_ne_probe, rv_ne_man, probe_ne_man, probe_help_ne_h,
          probe_help_ne_sub, probe_h_ne_sub]
      have e3 : firstIdx (probeInv path "help")
          (resolveInv shell m :: (probes3 path ++ [manInv ms m, colInv d])) =
            some 3 := by
        simp [firstIdx, probes3, rv_ne_probe, rv_ne_man, probe_ne_man, probe_help_ne_h,
          probe_help_ne_sub, probe_h_ne_sub]
      have e4 : firstIdx (manInv ms m)
          (resolveInv shell m :: (probes3 path ++ [manInv ms m, colInv d])) =
            some 4 := by
        simp [firstIdx, probes3, rv_ne_probe, rv_ne_man, probe_ne_man, probe_help_ne_h,
          probe_help_ne_sub, probe_h_ne_sub]
      exact ⟨before_firstIdx e1 e2 (by omega), before_firstIdx e2 e3 (by omega),
        before_firstIdx e3 e4 (by omega), before_firstIdx e1 e3 (by omega),
        before_firstIdx e1 e4 (by omega), before_firstIdx e2 e4 (by omega)⟩
  · rcases hms : man_stage env m ms with ⟨mo, tm⟩
    subst hte
    have htm : tm = [manInv ms m] ∨ ∃ d, tm = [manInv ms m, colInv d] := by
      have h6 : (man_stage env m ms).2 = tm := by rw [hms]
      rw [← h6]
      exact man_stage_trace env m ms
    have htr : (get_doc_core env shell m true ms).2 =
        resolveInv shell m ::
          ((probes3 path ++ [probeInv path "--help"]) ++ tm) := by
      rcases mo with _ | s2 <;> simp [get_doc_core, hv, hgp2, hec, hms]
    rcases htm with h2 | ⟨d, h2⟩ <;> subst h2 <;> rw [htr]
    · have e1 : firstIdx (probeInv path "--help")
          (resolveInv shell m ::
            ((probes3 path ++ [probeInv path "--help"]) ++ [manInv ms m])) =
            some 1 := by
        simp [firstIdx, probes3, rv_ne_probe, rv_ne_man, probe_ne_man, probe_help_ne_h,
          probe_help_ne_sub, probe_h_ne_sub]
      have e2 : firstIdx (probeInv path "-h")
          (resolveInv shell m ::
            ((probes3 path ++ [probeInv path "--help"]) ++ [manInv ms m])) =
            some 2 := by
        simp [firstIdx, probes3, rv_ne_probe, rv_ne_man, probe_ne_man, probe_help_ne_h,
          probe_help_ne_sub, probe_h_ne_sub]
      have e3 : firstIdx (probeInv path "help")
          (resolveInv shell m ::
            ((probes3 path ++ [probeInv path "--help"]) ++ [manInv ms m])) =
            some 3 := by
        simp [firstIdx, probes3, rv_ne_probe, rv_ne_man, probe_ne_man, probe_help_ne_h,
          probe_help_ne_sub, probe_h_ne_sub]
      have e4 : firstIdx (manInv ms m)
          (resolveInv shell m ::
            ((probes3 path ++ [probeInv path "--help"]) ++ [manInv ms m])) =
            some 5 := by
        simp [firstIdx, probes3, rv_ne_probe, rv_ne_man, probe_ne_man, probe_help_ne_h,
          probe_help_ne_sub, probe_h_ne_sub]
      exact ⟨before_firstIdx e1 e2 (by omega), before_firstIdx e2 e3 (by omega),
        before_firstIdx e3 e4 (by omega), before_firstIdx e1 e3 (by omega),
        before_firstIdx e1 e4 (by omega), before_firstIdx e2 e4 (by omega)⟩
    · have e1 : firstIdx (probeInv path "--help")
          (resolveInv shell m ::
            ((probes3 path ++ [probeInv path "--help"]) ++
              [manInv ms m, colInv d])) = some 1 := by
        simp [firstIdx, probes3, rv_ne_probe, rv_ne_man, probe_ne_man, probe_help_ne_h,
          probe_help_ne_sub, probe_h_ne_sub]
      have e2 : firstIdx (probeInv path "-h")
          (resolveInv shell m ::
            ((probes3 path ++ [probeInv path "--help"]) ++
              [manInv ms m, colInv d])) = some 2 := by
        simp [firstIdx, probes3, rv_ne_probe, rv_ne_man, probe_ne_man, probe_help_ne_h,
          probe_help_ne_sub, probe_h_ne_sub]
      have e3 : firstIdx (probeInv path "help")
          (resolveInv shell m ::
            ((probes3 path ++ [probeInv path "--help"]) ++
              [manInv ms m, colInv d])) = some 3 := by
        simp [firstIdx, probes3, rv_ne_probe, rv_ne_man, probe_ne_man, probe_help_ne_h,
          probe_help_ne_sub, probe_h_ne_sub]
      have e4 : firstIdx (manInv ms m)
          (resolveInv shell m ::
            ((probes3 path ++ [probeInv path "--help"]) ++
              [manInv ms m, colInv d])) = some 5 := by
        simp [firstIdx, probes3, rv_ne_probe, rv_ne_man, probe_ne_man, probe_help_ne_h,
          probe_help_ne_sub, probe_h_ne_sub]
      exact ⟨before_firstIdx e1 e2 (by omega), before_firstIdx e2 e3 (by omega),
        before_firstIdx e3 e4 (by omega), before_firstIdx e1 e3 (by omega),
        before_firstIdx e1 e4 (by omega), before_firstIdx e2 e4 (by omega)⟩

/-- Witness for C8: a concrete run (probes silent, manual missing) in which
the probes and the manual lookup all occur, in the claimed order. -/
theorem C8_witness :
    before (get_command_documentation envNoDocs "/bin/zsh" "ls" true none).2
        (probeInv "/bin/ls" "--help") (probeInv "/bin/ls" "-h") ∧
      before (get_command_documentation envNoDocs "/bin/zsh" "ls" true none).2
        (probeInv "/bin/ls" "-h") (probeInv "/bin/ls" "help") ∧
      before (get_command_documentation envNoDocs "/bin/zsh" "ls" true none).2
        (probeInv "/bin/ls" "help") (manInv none "ls") ∧
      before (get_command_documentation envNoDocs "/bin/zsh" "ls" true none).2
        (probeInv "/bin/ls" "--help") (probeInv "/bin/ls" "help") ∧
      before (get_command_documentation envNoDocs "/bin/zsh" "ls" true none).2
        (probeInv "/bin/ls" "--help") (manInv none "ls") ∧
      before (get_command_documentation envNoDocs "/bin/zsh" "ls" true none).2
        (probeInv "/bin/ls" "-h") (manInv none "ls") :=
  C8_probe_order envNoDocs "/bin/zsh" "ls" "ls" [] none "/bin/ls" rfl rfl rfl

end UnixManual
